import Mathlib

/-!
Shallow embedding of the scheduling and queue-management core of the
yt-meme-bot repository (src/app/db.py, src/app/queue_manager.py,
src/app/uploader.py, src/scheduler.py, src/youtube.py).

Modelling conventions:
* UTC instants are integers counting minutes since an arbitrary epoch;
  a UTC calendar date is the integer day index `t / 1440` (all instants
  of interest are non-negative, we use `Int.fdiv` i.e. floor division).
* The sqlite `uploads` table is a list of `Job` rows in rowid order;
  every db.py function is translated to a pure function on that list.
* `tags`/`channels` are kept as lists (the source stores them as
  comma-joined TEXT and splits on read; no claim depends on the join).
-/

namespace YtMemeBot

/-- Job status column: 'scheduled' | 'uploaded' | 'failed' (db.py schema). -/
inductive Status where
  | scheduled
  | uploaded
  | failed
deriving DecidableEq, Repr

/-- One row of the `uploads` table (db.py `init_db` schema).
`scheduledAt` is stored in minutes since epoch; all writes go through
`_iso` in the source, so the column always holds a well-formed UTC instant. -/
structure Job where
  id : Nat
  tgFileId : String
  title : String
  description : String
  tags : List String
  channels : List String
  scheduledAt : Int
  uploadedAt : Option Int
  status : Status
  error : Option String
  seqNo : Int
  fileHash : Option String
deriving DecidableEq, Repr

/-- The `uploads` table, rows in rowid (insertion) order. -/
abbrev Store := List Job

/-- UTC calendar date (day index) of an instant in minutes. -/
def dateOf (t : Int) : Int := t.fdiv 1440

/-- scheduler.py `_start_of_day_utc`: midnight UTC of day `d`, in minutes. -/
def start_of_day_utc (d : Int) : Int := d * 1440

/-- db.py `mark_uploaded`: UPDATE uploads SET status='uploaded', uploaded_at=?
WHERE id=?  (matches by id only; no status guard). -/
def mark_uploaded (s : Store) (jobId : Nat) (when : Int) : Store :=
  s.map (fun j => if j.id = jobId then
    { j with status := .uploaded, uploadedAt := some when } else j)

/-- db.py `mark_failed`: UPDATE uploads SET status='failed', error=? WHERE id=?,
with the error text truncated to 500 characters (`error_text[:500]`). -/
def mark_failed (s : Store) (jobId : Nat) (errorText : String) : Store :=
  s.map (fun j => if j.id = jobId then
    { j with status := .failed, error := some (errorText.take 500) } else j)

/-- db.py `reschedule`: UPDATE uploads SET status='scheduled', scheduled_at=?,
error=? WHERE id=?.  The reason is stored verbatim (no `[:500]` here). -/
def reschedule (s : Store) (jobId : Nat) (newTime : Int) (reason : Option String) :
    Store :=
  s.map (fun j => if j.id = jobId then
    { j with status := .scheduled, scheduledAt := newTime, error := reason } else j)

/-- db.py `reschedule_forward`: UPDATE uploads SET scheduled_at=? WHERE id=?
(status and every other column untouched). -/
def reschedule_forward (s : Store) (jobId : Nat) (newScheduledAt : Int) : Store :=
  s.map (fun j => if j.id = jobId then { j with scheduledAt := newScheduledAt } else j)

/-- Row predicate of db.py `count_uploaded_on`: status='uploaded' AND
uploaded_at LIKE 'date%' (a NULL uploaded_at never matches LIKE). -/
def uploadedOnP (d : Int) (j : Job) : Bool :=
  j.status == .uploaded &&
    (match j.uploadedAt with
     | some t => dateOf t == d
     | none => false)

/-- db.py `count_uploaded_on`. -/
def count_uploaded_on (s : Store) (d : Int) : Nat :=
  s.countP (uploadedOnP d)

/-- Row predicate of db.py `count_scheduled_on`: status='scheduled' AND
scheduled_at LIKE 'date%'. -/
def scheduledOnP (d : Int) (j : Job) : Bool :=
  j.status == .scheduled && dateOf j.scheduledAt == d

/-- db.py `count_scheduled_on`. -/
def count_scheduled_on (s : Store) (d : Int) : Nat :=
  s.countP (scheduledOnP d)

/-- db.py `next_seq_no`: SELECT COALESCE(MAX(seq_no), base-1) + 1 FROM uploads.
MAX ranges over the rows currently in the table; it is NULL (so the COALESCE
fires) exactly when the table is empty. -/
def next_seq_no (s : Store) (base : Int) : Int :=
  match s.map (·.seqNo) with
  | [] => base
  | x :: xs => xs.foldl max x + 1

/-- db.py `due_jobs`: SELECT ... WHERE status='scheduled' AND scheduled_at <= ?
ORDER BY scheduled_at ASC, id ASC. -/
def due_jobs (s : Store) (now : Int) : List Job :=
  (s.filter (fun j => j.status == .scheduled && j.scheduledAt ≤ now)).insertionSort
    (fun a b => a.scheduledAt < b.scheduledAt ∨
      (a.scheduledAt = b.scheduledAt ∧ a.id ≤ b.id))

/-- db.py `count_scheduled_videos`: SELECT COUNT(*) ... WHERE status='scheduled'. -/
def count_scheduled_videos (s : Store) : Nat :=
  s.countP (fun j => j.status == .scheduled)

/-- db.py `delete_scheduled_video`: DELETE FROM uploads WHERE id=? AND
status='scheduled'; the function then returns True unconditionally. -/
def delete_scheduled_video (s : Store) (jobId : Nat) : Store × Bool :=
  (s.filter (fun j => !(j.id == jobId && j.status == .scheduled)), true)

/-- db.py `get_scheduled_after`: SELECT id, scheduled_at ... WHERE
status='scheduled' AND scheduled_at > ? ORDER BY scheduled_at ASC. -/
def get_scheduled_after (s : Store) (t : Int) : List Job :=
  (s.filter (fun j => j.status == .scheduled && t < j.scheduledAt)).insertionSort
    (fun a b => a.scheduledAt ≤ b.scheduledAt)

/-- db.py `get_video_details`: SELECT ... WHERE id=? AND status='scheduled'. -/
def get_video_details (s : Store) (jobId : Nat) : Option Job :=
  s.find? (fun j => j.id == jobId && j.status == .scheduled)

/-- The error value stored by db.py `log_new_job`:
`(error or "")[:500] if error else None` — a missing or empty reason is
stored as NULL, a non-empty one truncated to 500 characters. -/
def storedError (e : Option String) : Option String :=
  match e with
  | none => none
  | some s => if s = "" then none else some (s.take 500)

/-- db.py `log_new_job`: INSERT INTO uploads (...); the new row is appended
at the end (AUTOINCREMENT rowids grow).  `id` models the AUTOINCREMENT key
supplied by sqlite. -/
def log_new_job (s : Store) (id : Nat) (tgFileId : String) (title : String)
    (description : String) (tags channels : List String) (scheduledAt : Int)
    (uploadedAt : Option Int) (status : Status) (error : Option String)
    (seqNo : Int) (fileHash : Option String) : Store :=
  s ++ [{ id := id, tgFileId := tgFileId, title := title,
          description := description, tags := tags, channels := channels,
          scheduledAt := scheduledAt, uploadedAt := uploadedAt,
          status := status, error := storedError error, seqNo := seqNo,
          fileHash := fileHash }]

/-- scheduler.py `compute_next_day_slot`:
`start_of_day_utc(date) + start_hour hours + count_scheduled_on(date) * interval`
minutes. -/
def compute_next_day_slot (s : Store) (dateUtc : Int) (startHour intervalMin : Int) :
    Int :=
  start_of_day_utc dateUtc + startHour * 60 +
    (count_scheduled_on s dateUtc : Int) * intervalMin

/-- app/uploader.py `_next_available_slot`: midnight of the target date plus
`upload_start_hour` hours plus `count_scheduled_on(target_date) *
upload_interval_minutes` minutes. -/
def next_available_slot (s : Store) (targetDate : Int) (startHour intervalMin : Int) :
    Int :=
  (targetDate * 1440 + startHour * 60) +
    (count_scheduled_on s targetDate : Int) * intervalMin

/-- The slot formula exactly as the spec words it:
`slot = dayStart(date) + startHour·hours + k·interval` where `k` is the
occupancy of the date.  Used only to compare the code's allocators against
the specification. -/
def slotSpec (dateUtc startHour k intervalMin : Int) : Int :=
  start_of_day_utc dateUtc + startHour * 60 + k * intervalMin

/-- app/queue_manager.py `handle_queue_deletion`: snapshot
`get_scheduled_after(deleted_time)`, then for each `(job_id, old_time)` in the
snapshot call `reschedule_forward(job_id, old_time - interval)`, counting the
rows touched; returns the count. -/
def handle_queue_deletion (s : Store) (intervalMin : Int) (deletedTime : Int) :
    Store × Nat :=
  let laterVideos := (get_scheduled_after s deletedTime).map
    (fun j => (j.id, j.scheduledAt))
  (laterVideos.foldl
    (fun acc p => reschedule_forward acc p.1 (p.2 - intervalMin)) s,
   laterVideos.length)

/-- app/bot.py `delete_yes_handler` (store-relevant core): look the job up
with `get_video_details`; if absent report not-found; else delete the row and
run `handle_queue_deletion` at the deleted job's time.  Returns the final
store and the reported count of shifted jobs. -/
def delete_yes_handler (s : Store) (intervalMin : Int) (jobId : Nat) :
    Option (Store × Nat) :=
  match get_video_details s jobId with
  | none => none
  | some job =>
      some (handle_queue_deletion (delete_scheduled_video s jobId).1 intervalMin
        job.scheduledAt)

/-! ### Duplicate detection over the raw TEXT column

db.py `check_if_hash_exists` reads `scheduled_at` as raw TEXT and parses it
with `datetime.fromisoformat`, returning None on a `ValueError`.  To express
that branch we model the raw column content by the outcome of that parse:
`parsedScheduledAt = some t` for text that parses to the instant `t`,
`none` for text `fromisoformat` rejects.  `title` is `Option String` since
the column is nullable. -/

/-- A raw row as seen by `check_if_hash_exists`:
(file_hash, scheduled_at TEXT via its parse outcome, title). -/
structure RawRow where
  fileHash : Option String
  parsedScheduledAt : Option Int
  title : Option String
deriving DecidableEq, Repr

/-- db.py `check_if_hash_exists`: returns `(date, title)` of the first row
whose `file_hash` equals the argument, or None when the hash is falsy
(`if not file_hash` — Python None or the empty string, modelled as
`Option String`), when no row matches, or when the matched row's
`scheduled_at` text does not parse (the `except ValueError` branch).
`row[1] or "Unknown Title"` replaces a NULL or empty title. -/
def check_if_hash_exists (rows : List RawRow) (fileHash : Option String) :
    Option (Int × String) :=
  if fileHash.getD "" = "" then none
  else
    match rows.find? (fun r => r.fileHash == fileHash) with
    | none => none
    | some r =>
        match r.parsedScheduledAt with
        | none => none
        | some t =>
            some (dateOf t,
              match r.title with
              | none => "Unknown Title"
              | some s => if s = "" then "Unknown Title" else s)

/-- A concrete row used by witnesses and counterexamples. -/
def sampleJob (id : Nat) (schedAt : Int) (st : Status) : Job :=
  { id := id, tgFileId := "file", title := "title", description := "desc",
    tags := [], channels := [], scheduledAt := schedAt, uploadedAt := none,
    status := st, error := none, seqNo := 100 + (id : Int), fileHash := none }

/-! ### The upload collaborator and the two dispatch paths -/

/-- Outcome of one call to youtube.py `upload_to_all` (plus, on the sweep
path, the preceding Telegram download): either it returns
`(num_success, results_per_channelfile)` — it catches every per-channel
exception itself, so `numOk = 0` is an ordinary return — or an exception is
raised before/around it. -/
inductive DispatchOutcome where
  | returns (numOk : Nat) (results : List (String × String))
  | raises (msg : String)
deriving DecidableEq, Repr

/-- External effects consumed by app/uploader.py `handle_upload`:
the computed content hash, whether ffmpeg standardisation succeeded, the
sorted channel-credential names, and the `upload_to_all` outcome. -/
structure UploadEnv where
  fileHash : String
  processOk : Bool
  channelNames : List String
  dispatch : DispatchOutcome
deriving Repr

/-- Store-level twin of `check_if_hash_exists` used on the submission path:
rows written by this core always carry a parseable `scheduled_at`, so the
ValueError branch cannot fire here. -/
def check_hash_store (s : Store) (fileHash : String) : Option (Int × String) :=
  if fileHash = "" then none
  else
    match s.find? (fun j => j.fileHash == some fileHash) with
    | none => none
    | some j =>
        some (dateOf j.scheduledAt,
          if j.title = "" then "Unknown Title" else j.title)

/-- What app/uploader.py `handle_upload` reports back (store-irrelevant
message text reduced to its discriminator). -/
inductive UploadOutcome where
  | noChannels
  | duplicate (date : Int) (title : String)
  | processFailed
  | uploadedNow (numOk : Nat)
  | scheduledLater (slot : Int)
  | dispatchRaised (msg : String)
deriving DecidableEq, Repr

/-- app/uploader.py `handle_upload`, store-relevant core.  Faithful control
order: channel check, duplicate check (skipped under `force`), ffmpeg check,
then: under the daily limit call `upload_to_all` and — whatever
`(num_ok, results)` it returns — log the row with status 'uploaded';
at the limit compute `_next_available_slot(tomorrow)` and log the row with
status 'scheduled'.  `newId` models the AUTOINCREMENT id sqlite assigns. -/
def handle_upload (s : Store) (newId : Nat) (now : Int) (dailyLimit : Nat)
    (startHour intervalMin : Int) (env : UploadEnv)
    (tgFileId title description : String) (tags : List String) (force : Bool) :
    Store × UploadOutcome :=
  let today := dateOf now
  let uploadedToday := count_uploaded_on s today
  let seqNo := next_seq_no s 100
  if env.channelNames = [] then (s, .noChannels)
  else if ¬ force ∧ (check_hash_store s env.fileHash).isSome then
    match check_hash_store s env.fileHash with
    | some (d, t) => (s, .duplicate d t)
    | none => (s, .processFailed)
  else if ¬ env.processOk then (s, .processFailed)
  else if uploadedToday < dailyLimit then
    match env.dispatch with
    | .raises m => (s, .dispatchRaised m)
    | .returns numOk _ =>
        (log_new_job s newId tgFileId title description tags env.channelNames
          now (some now) .uploaded none seqNo (some env.fileHash),
         .uploadedNow numOk)
  else
    let slot := next_available_slot s (today + 1) startHour intervalMin
    (log_new_job s newId tgFileId title description tags env.channelNames
      slot none .scheduled none seqNo (some env.fileHash),
     .scheduledLater slot)

/-! ### The periodic sweep (src/scheduler.py `process_scheduled`) -/

/-- Configuration the sweep reads. -/
structure SweepCfg where
  dailyLimit : Nat
  uploadStartHour : Int
  uploadIntervalMinutes : Int
deriving Repr

/-- External effects consumed by one sweep, per job id: the dispatch outcome
(Telegram download + `upload_to_all`), the completion instant written by
`mark_uploaded`, whether each of the three `send_message` calls succeeds, and
the exception text when the post-success notification raises. -/
structure SweepEnv where
  dispatch : Nat → DispatchOutcome
  completeAt : Nat → Int
  notifyLimitOk : Nat → Bool
  notifySuccessOk : Nat → Bool
  notifyErrorOk : Nat → Bool
  notifyFailMsg : Nat → String

/-- The reason string scheduler.py records in the daily-limit branch. -/
def limitReason : String := "Daily limit reached while processing queue"

/-- The per-job loop of `process_scheduled` (scheduler.py lines 41-91) over
the due snapshot.  Faithful structure: the daily-limit branch reschedules and
then notifies OUTSIDE any try, so a notify failure there escapes to the
sweep-level handler and ends the sweep; in the dispatch try-block a raised
exception (download or `upload_to_all`) is caught, the job rescheduled to
tomorrow's slot with `str(e)` as reason, and the follow-up notification again
runs unprotected; after a successful dispatch the job is marked uploaded and
the running count incremented BEFORE the success notification, whose failure
is caught by the same except clause and thus reschedules the already-marked
job. -/
def run_due_jobs (cfg : SweepCfg) (env : SweepEnv) (today : Int) :
    List Job → Store → Nat → Store
  | [], s, _ => s
  | j :: rest, s, uploadedToday =>
    if cfg.dailyLimit ≤ uploadedToday then
      let newTime := compute_next_day_slot s (today + 1) cfg.uploadStartHour
        cfg.uploadIntervalMinutes
      let s1 := reschedule s j.id newTime (some limitReason)
      if env.notifyLimitOk j.id then run_due_jobs cfg env today rest s1 uploadedToday
      else s1
    else
      match env.dispatch j.id with
      | .returns _ _ =>
          let s1 := mark_uploaded s j.id (env.completeAt j.id)
          if env.notifySuccessOk j.id then
            run_due_jobs cfg env today rest s1 (uploadedToday + 1)
          else
            let newTime := compute_next_day_slot s1 (today + 1)
              cfg.uploadStartHour cfg.uploadIntervalMinutes
            let s2 := reschedule s1 j.id newTime (some (env.notifyFailMsg j.id))
            if env.notifyErrorOk j.id then
              run_due_jobs cfg env today rest s2 (uploadedToday + 1)
            else s2
      | .raises m =>
          let newTime := compute_next_day_slot s (today + 1) cfg.uploadStartHour
            cfg.uploadIntervalMinutes
          let s1 := reschedule s j.id newTime (some m)
          if env.notifyErrorOk j.id then
            run_due_jobs cfg env today rest s1 uploadedToday
          else s1

/-- scheduler.py `process_scheduled`: one sweep.  Reads `now`, today's
uploaded count; returns unchanged if the daily limit is already met;
otherwise snapshots `due_jobs(now)` and runs the per-job loop.  Any
exception escaping the loop is caught at this level (sweep simply ends with
the mutations made so far), which `run_due_jobs` models by returning the
current store on an unprotected notification failure. -/
def process_scheduled (cfg : SweepCfg) (env : SweepEnv) (s : Store) (now : Int) :
    Store :=
  let today := dateOf now
  let uploadedToday := count_uploaded_on s today
  if cfg.dailyLimit ≤ uploadedToday then s
  else run_due_jobs cfg env today (due_jobs s now) s uploadedToday

/-! ## Shared helper lemmas -/

/-- The initial accumulator is below a `foldl max`. -/
theorem le_foldl_max_init (l : List Int) (a : Int) : a ≤ l.foldl max a := by
  induction l generalizing a with
  | nil => exact le_refl a
  | cons x xs ih =>
    simp only [List.foldl_cons]
    exact le_trans (le_max_left a x) (ih (max a x))

/-- Every element of the list is below a `foldl max`. -/
theorem le_foldl_max_of_mem : ∀ (l : List Int) (a b : Int), b ∈ l →
    b ≤ l.foldl max a
  | x :: xs, a, b, hb => by
    simp only [List.foldl_cons]
    rcases List.mem_cons.mp hb with h | h
    · subst h
      exact le_trans (le_max_right a b) (le_foldl_max_init xs (max a b))
    · exact le_foldl_max_of_mem xs (max a x) b h

/-- Counting a predicate and its complement exhausts the list. -/
theorem countP_add_countP_not (l : List Job) (p : Job → Bool) :
    l.countP p + l.countP (fun j => !(p j)) = l.length := by
  induction l with
  | nil => rfl
  | cons x xs ih =>
    by_cases h : p x = true
    · simp [List.countP_cons, h, Nat.add_right_comm, ih]
      omega
    · simp [List.countP_cons, h, ih]
      omega

/-! ## C3 — slot allocator -/

/-- C3: for every UTC date `D`, start hour and interval, both slot allocators
(`_next_available_slot` in app/uploader.py and `compute_next_day_slot` in
scheduler.py) return `dayStart(D) + startHour·hours + countScheduledOn(D)·interval`
(the spec's formula `slotSpec`); the result depends only on the date's
occupancy count, so two stores with the same count yield the same instant
(determinism of repeated calls without an intervening insertion); and after
one Scheduled job is inserted on `D` the computed slot advances by exactly
one interval. -/
theorem C3_slot_allocator (s s' : Store) (d startHour intervalMin : Int)
    (newId : Nat) (tgFileId title description : String)
    (tags channels : List String) (schedAt seqNo : Int) (fh : Option String)
    (hsame : count_scheduled_on s' d = count_scheduled_on s d)
    (hdate : dateOf schedAt = d) :
    next_available_slot s d startHour intervalMin
        = slotSpec d startHour (count_scheduled_on s d) intervalMin
      ∧ compute_next_day_slot s d startHour intervalMin
        = slotSpec d startHour (count_scheduled_on s d) intervalMin
      ∧ next_available_slot s' d startHour intervalMin
        = next_available_slot s d startHour intervalMin
      ∧ next_available_slot
          (log_new_job s newId tgFileId title description tags channels schedAt
            none .scheduled none seqNo fh) d startHour intervalMin
        = next_available_slot s d startHour intervalMin + intervalMin := by
  have hcount : count_scheduled_on
      (log_new_job s newId tgFileId title description tags channels schedAt
        none .scheduled none seqNo fh) d = count_scheduled_on s d + 1 := by
    simp [count_scheduled_on, log_new_job, List.countP_append, List.countP_cons,
      scheduledOnP, hdate]
  refine ⟨rfl, rfl, ?_, ?_⟩
  · simp [next_available_slot, hsame]
  · simp only [next_available_slot, hcount]
    push_cast
    ring

/-- C3 witness: the general theorem applied at a concrete store, date and
configuration. -/
theorem C3_slot_allocator_witness :
    next_available_slot [] 0 10 30
        = slotSpec 0 10 (count_scheduled_on [] 0) 30
      ∧ compute_next_day_slot [] 0 10 30
        = slotSpec 0 10 (count_scheduled_on [] 0) 30
      ∧ next_available_slot [] 0 10 30 = next_available_slot [] 0 10 30
      ∧ next_available_slot
          (log_new_job [] 1 "f" "t" "d" [] [] 0 none .scheduled none 100 none)
          0 10 30
        = next_available_slot [] 0 10 30 + 30 :=
  C3_slot_allocator [] [] 0 10 30 1 "f" "t" "d" [] [] 0 100 none rfl (by decide)

/-! ## C8 — delete return value -/

/-- C8 counterexample: the empty store holds no Scheduled row with id 5, so
the claim requires `delete(5)` to return false ("not found"); the code's
`delete_scheduled_video` removes nothing and still returns True. -/
theorem C8_counterexample : delete_scheduled_video ([] : Store) 5 = ([], true) :=
  rfl

/-- C8 amended: `delete_scheduled_video` removes exactly the Scheduled rows
with the given id, but its return value is the constant True — it does not
report whether a row was actually removed, so "not found" cannot be detected
from it (bot.py detects absence separately via `get_video_details` before
deleting). -/
theorem C8_delete_always_true (s : Store) (jobId : Nat) :
    (delete_scheduled_video s jobId).2 = true
      ∧ (∀ j ∈ s, (j ∈ (delete_scheduled_video s jobId).1
          ↔ ¬ (j.id = jobId ∧ j.status = .scheduled)))
      ∧ (delete_scheduled_video s jobId).1.length
          + s.countP (fun j => j.id == jobId && j.status == .scheduled)
          = s.length := by
  refine ⟨rfl, ?_, ?_⟩
  · intro j hj
    simp only [delete_scheduled_video, List.mem_filter, hj, true_and,
      Bool.not_eq_true', Bool.and_eq_false_iff, beq_eq_false_iff_ne, ne_eq,
      not_and]
    tauto
  · have := countP_add_countP_not s
      (fun j => !(j.id == jobId && j.status == .scheduled))
    simp only [delete_scheduled_video]
    rw [← List.countP_eq_length_filter]
    simpa [Bool.not_not] using this

/-- C8 witness: the amended theorem applied at a one-row store. -/
theorem C8_delete_always_true_witness :
    (delete_scheduled_video [sampleJob 1 0 .scheduled] 1).2 = true :=
  (C8_delete_always_true [sampleJob 1 0 .scheduled] 1).1

/-! ## C7 — error-message truncation -/

/-- C7 counterexample: `reschedule` with a 501-character reason stores the
full 501-character string as the row's error — it is not truncated to the
500-character bound, refuting "the stored errorMessage equals the given
reason truncated to 500 characters" and the ≤ 500 length bound. -/
theorem C7_counterexample :
    (reschedule [sampleJob 1 0 .scheduled] 1 5
        (some (String.mk (List.replicate 501 'a')))).map (·.error)
      = [some (String.mk (List.replicate 501 'a'))]
    ∧ (String.mk (List.replicate 501 'a')).length = 501 := by
  constructor
  · rfl
  · show (List.replicate 501 'a').length = 501
    exact List.length_replicate 501 'a'

/-- C7 amended: `reschedule` stores the reason verbatim (no `[:500]`), so an
errorMessage written on that path can exceed 500 characters; the
500-character truncation is applied by `mark_failed` (and by `log_new_job`),
whose stored text is bounded by 500. -/
theorem C7_reschedule_reason_verbatim (s : Store) (jobId : Nat) (t : Int)
    (reason e : String) (j0 : Job) (hj : j0 ∈ s) (hid : j0.id = jobId) :
    ({ j0 with status := .scheduled, scheduledAt := t, error := some reason }
        ∈ reschedule s jobId t (some reason))
      ∧ ({ j0 with status := .failed, error := some (e.take 500) }
        ∈ mark_failed s jobId e)
      ∧ (e.take 500).length ≤ 500 := by
  refine ⟨?_, ?_, ?_⟩
  · have h : (fun j => if j.id = jobId then
        { j with status := Status.scheduled, scheduledAt := t, error := some reason } else j) j0
        = { j0 with status := Status.scheduled, scheduledAt := t, error := some reason } := by
      simp [hid]
    exact h ▸ List.mem_map_of_mem _ hj
  · have h : (fun j => if j.id = jobId then
        { j with status := Status.failed, error := some (e.take 500) }
        else j) j0
        = { j0 with status := .failed, error := some (e.take 500) } := by
      simp [hid]
    exact h ▸ List.mem_map_of_mem _ hj
  · rw [String.take_eq]
    show (e.data.take 500).length ≤ 500
    exact List.length_take_le 500 e.data

/-- C7 witness: the amended theorem applied at a one-row store. -/
theorem C7_reschedule_reason_verbatim_witness :
    ({ sampleJob 1 0 Status.scheduled with status := Status.scheduled, scheduledAt := (5 : Int), error := some "why" }
        ∈ reschedule [sampleJob 1 0 .scheduled] 1 5 (some "why"))
      ∧ ({ sampleJob 1 0 Status.scheduled with status := Status.failed, error := some (String.take "boom" 500) }
        ∈ mark_failed [sampleJob 1 0 .scheduled] 1 "boom")
      ∧ (String.take "boom" 500).length ≤ 500 :=
  C7_reschedule_reason_verbatim [sampleJob 1 0 .scheduled] 1 5 "why" "boom"
    (sampleJob 1 0 .scheduled) (by simp) rfl

/-! ## C4 — terminal states -/

/-- C4 counterexample: applying `reschedule` to a job that is already
Uploaded does not leave it Uploaded — the row comes back with
status='scheduled'; and a second `mark_uploaded` overwrites `uploadedAt`,
so it is not set exactly once. -/
theorem C4_counterexample :
    (reschedule [sampleJob 1 0 .uploaded] 1 99 (some "r")).map (·.status)
        = [Status.scheduled]
      ∧ (mark_uploaded (mark_uploaded [sampleJob 1 0 .scheduled] 1 10) 1 20).map
          (·.uploadedAt) = [some 20] := by
  constructor
  · simp [reschedule, sampleJob]
  · simp [mark_uploaded, sampleJob]

/-- C4 amended: the store operations match rows by id only, with no status
guard: `reschedule` always leaves the target row Scheduled with the new time
and reason (even if it was Uploaded or Failed), `mark_uploaded` always
overwrites status and `uploadedAt`, and rows with a different id are
untouched by all four operations.  Terminality of Uploaded/Failed is a
caller-side convention, not enforced by the store. -/
theorem C4_no_status_guard (s : Store) (jobId : Nat) (t newT when : Int)
    (r : Option String) (e : String) (j0 : Job) (hj : j0 ∈ s) :
    (j0.id = jobId →
        ({ j0 with status := .scheduled, scheduledAt := t, error := r }
            ∈ reschedule s jobId t r)
          ∧ ({ j0 with status := .uploaded, uploadedAt := some when }
            ∈ mark_uploaded s jobId when))
      ∧ (j0.id ≠ jobId →
          j0 ∈ reschedule s jobId t r ∧ j0 ∈ mark_uploaded s jobId when
            ∧ j0 ∈ mark_failed s jobId e
            ∧ j0 ∈ reschedule_forward s jobId newT) := by
  constructor
  · intro h
    constructor
    · have heq : (fun j => if j.id = jobId then
          { j with status := Status.scheduled, scheduledAt := t, error := r }
          else j) j0
          = { j0 with status := .scheduled, scheduledAt := t, error := r } := by
        simp [h]
      exact heq ▸ List.mem_map_of_mem _ hj
    · have heq : (fun j => if j.id = jobId then
          { j with status := Status.uploaded, uploadedAt := some when }
          else j) j0
          = { j0 with status := .uploaded, uploadedAt := some when } := by
        simp [h]
      exact heq ▸ List.mem_map_of_mem _ hj
  · intro h
    refine ⟨?_, ?_, ?_, ?_⟩
    · have heq : (fun j => if j.id = jobId then
          { j with status := Status.scheduled, scheduledAt := t, error := r }
          else j) j0 = j0 := if_neg h
      exact heq ▸ List.mem_map_of_mem _ hj
    · have heq : (fun j => if j.id = jobId then
          { j with status := Status.uploaded, uploadedAt := some when }
          else j) j0 = j0 := if_neg h
      exact heq ▸ List.mem_map_of_mem _ hj
    · have heq : (fun j => if j.id = jobId then
          { j with status := Status.failed, error := some (e.take 500) }
          else j) j0 = j0 := if_neg h
      exact heq ▸ List.mem_map_of_mem _ hj
    · have heq : (fun j => if j.id = jobId then
          { j with scheduledAt := newT } else j) j0 = j0 := if_neg h
      exact heq ▸ List.mem_map_of_mem _ hj

/-- C4 witness: the amended theorem applied at a two-row store, extracting
that rescheduling the Uploaded row with id 1 leaves it Scheduled while the
row with id 2 is untouched. -/
theorem C4_no_status_guard_witness :
    ({ sampleJob 1 0 Status.uploaded with status := Status.scheduled, scheduledAt := (7 : Int), error := some "r" }
      ∈ reschedule [sampleJob 1 0 .uploaded, sampleJob 2 0 .uploaded] 1 7
          (some "r"))
    ∧ (sampleJob 2 0 .uploaded
      ∈ reschedule [sampleJob 1 0 .uploaded, sampleJob 2 0 .uploaded] 1 7
          (some "r")) :=
  ⟨((C4_no_status_guard [sampleJob 1 0 .uploaded, sampleJob 2 0 .uploaded]
      1 7 8 9 (some "r") "e" (sampleJob 1 0 .uploaded) (by simp)).1 rfl).1,
   ((C4_no_status_guard [sampleJob 1 0 .uploaded, sampleJob 2 0 .uploaded]
      1 7 8 9 (some "r") "e" (sampleJob 2 0 .uploaded) (by simp)).2
        (by decide)).1⟩

end YtMemeBot

namespace YtMemeBot

/-! ## C9 — sequence numbers -/

/-- C9 counterexample: `next_seq_no` is `MAX(seq_no)` over the rows
currently in the table plus one, so a deleted row's number can be handed out
again.  Concretely: on the empty store the first job is assigned
sequenceNumber 100; after that (Scheduled) row is deleted the next
assignment is 100 again — not strictly greater than every previously
assigned sequenceNumber, and a reuse. -/
theorem C9_counterexample :
    (log_new_job [] 1 "f" "t" "d" [] [] 0 none .scheduled none
        (next_seq_no [] 100) none).map (·.seqNo) = [100]
      ∧ next_seq_no ((delete_scheduled_video
          (log_new_job [] 1 "f" "t" "d" [] [] 0 none .scheduled none
            (next_seq_no [] 100) none) 1).1) 100 = 100 := by
  constructor
  · rfl
  · rfl

/-- C9 amended: each newly assigned sequenceNumber (`next_seq_no`) is
strictly greater than the sequenceNumber of every row PRESENT in the store
at assignment time; numbers of rows that have since been deleted are outside
the maximum and may be reassigned. -/
theorem C9_seq_no_gt_live_rows (s : Store) (base : Int) (j : Job)
    (hj : j ∈ s) : j.seqNo < next_seq_no s base := by
  cases s with
  | nil => cases hj
  | cons x xs =>
    show j.seqNo < (xs.map (·.seqNo)).foldl max x.seqNo + 1
    have hle : j.seqNo ≤ (xs.map (·.seqNo)).foldl max x.seqNo := by
      rcases List.mem_cons.mp hj with h | h
      · exact h ▸ le_foldl_max_init _ _
      · exact le_foldl_max_of_mem _ _ _ (List.mem_map_of_mem _ h)
    omega

/-- C9 witness: the amended theorem applied at a one-row store. -/
theorem C9_seq_no_gt_live_rows_witness :
    (sampleJob 3 0 .scheduled).seqNo < next_seq_no [sampleJob 3 0 .scheduled] 100 :=
  C9_seq_no_gt_live_rows [sampleJob 3 0 .scheduled] 100 (sampleJob 3 0 .scheduled)
    (by simp)

/-! ## C10 — duplicate lookup -/

/-- C10: the duplicate lookup reports no conflict for an absent or
empty-string fingerprint (the `if not file_hash` guard returns before the
query); it reports no conflict when the first matching row's `scheduled_at`
text fails to parse (the `except ValueError` branch); and whenever it does
report a conflict, the existing row carries exactly the queried, non-empty
fingerprint — so a row persisted with a NULL fingerprint can never be the
'existing' side of a conflict. -/
theorem C10_hash_lookup (rows : List RawRow) (h : String) :
    check_if_hash_exists rows none = none
      ∧ check_if_hash_exists rows (some "") = none
      ∧ (∀ r, rows.find? (fun r => r.fileHash == some h) = some r →
          r.parsedScheduledAt = none →
          check_if_hash_exists rows (some h) = none)
      ∧ (∀ d t, check_if_hash_exists rows (some h) = some (d, t) →
          ∃ r ∈ rows, r.fileHash = some h ∧ h ≠ "") := by
  refine ⟨rfl, rfl, ?_, ?_⟩
  · intro r hfind hparse
    by_cases hh : h = ""
    · simp [check_if_hash_exists, hh]
    · simp only [check_if_hash_exists, Option.getD_some, if_neg hh, hfind,
        hparse]
  · intro d t hres
    by_cases hh : h = ""
    · simp [check_if_hash_exists, hh] at hres
    · simp only [check_if_hash_exists, Option.getD_some, if_neg hh] at hres
      cases hfind : rows.find? (fun r => r.fileHash == some h) with
      | none => rw [hfind] at hres; cases hres
      | some r =>
          refine ⟨r, List.mem_of_find?_eq_some hfind, ?_, hh⟩
          have := List.find?_some hfind
          exact eq_of_beq this

/-- C10 witness: applied at a one-row store whose matching row has an
unparsable `scheduled_at`, extracting the no-conflict result. -/
theorem C10_hash_lookup_witness :
    check_if_hash_exists [⟨some "h1", none, some "T"⟩] (some "h1") = none :=
  (C10_hash_lookup [⟨some "h1", none, some "T"⟩] "h1").2.2.1
    ⟨some "h1", none, some "T"⟩ rfl rfl

end YtMemeBot

namespace YtMemeBot

/-! ## C2 — deletion cascade -/

/-- `lookup` in an association list with Nodup keys finds a member's value. -/
theorem lookup_eq_some_of_nodup_keys :
    ∀ (ps : List (Nat × Int)) (k : Nat) (v : Int),
      (ps.map Prod.fst).Nodup → (k, v) ∈ ps → List.lookup k ps = some v
  | [], _, _, _, hmem => by cases hmem
  | (a, b) :: ps, k, v, hnd, hmem => by
    have hnd2 : (a :: ps.map Prod.fst).Nodup := by simpa using hnd
    obtain ⟨ha, hps⟩ := List.nodup_cons.mp hnd2
    rcases List.mem_cons.mp hmem with h | h
    · injection h with h1 h2
      subst h1; subst h2
      exact List.lookup_cons_self
    · have hk : (k == a) = false := by
        refine beq_eq_false_iff_ne.mpr ?_
        intro hka
        exact ha (hka ▸ (by simpa using List.mem_map_of_mem Prod.fst h :
          k ∈ ps.map Prod.fst))
      rw [List.lookup_cons, hk]
      exact lookup_eq_some_of_nodup_keys ps k v (by simpa using hps) h

/-- The per-pair `reschedule_forward` fold of `handle_queue_deletion` acts as
a single uniform map when the snapshot's job ids are distinct: each row whose
id carries value `oldT` in the snapshot moves to `oldT - interval`,
independent of processing order; every other row is untouched. -/
theorem foldl_reschedule_forward_eq_map (intervalMin : Int) :
    ∀ (ps : List (Nat × Int)) (s : Store), (ps.map Prod.fst).Nodup →
      ps.foldl (fun acc p => reschedule_forward acc p.1 (p.2 - intervalMin)) s
        = s.map (fun j =>
            match List.lookup j.id ps with
            | some oldT => { j with scheduledAt := oldT - intervalMin }
            | none => j)
  | [], s, _ => by simp
  | (a, b) :: ps, s, hnd => by
    have hnd2 : (a :: ps.map Prod.fst).Nodup := by simpa using hnd
    obtain ⟨ha, hps⟩ := List.nodup_cons.mp hnd2
    have ih := foldl_reschedule_forward_eq_map intervalMin ps
      (reschedule_forward s a (b - intervalMin)) (by simpa using hps)
    simp only [List.foldl_cons] at *
    rw [ih, reschedule_forward, List.map_map]
    refine List.map_eq_map_iff.mpr ?_
    intro j _
    by_cases hj : j.id = a
    · have hla : List.lookup j.id ((a, b) :: ps) = some b := by
        rw [hj]; exact List.lookup_cons_self
      have hnone : List.lookup j.id ps = none := by
        refine List.lookup_eq_none_iff.mpr ?_
        intro p hp
        refine bne_iff_ne.mpr ?_
        intro hkp
        exact ha ((hj ▸ hkp) ▸ List.mem_map_of_mem Prod.fst hp)
      rw [hj] at hnone
      simp [Function.comp, hj, hla, hnone]
    · have hla : List.lookup j.id ((a, b) :: ps) = List.lookup j.id ps := by
        rw [List.lookup_cons, beq_eq_false_iff_ne.mpr hj]
      simp only [Function.comp, if_neg hj, hla]

end YtMemeBot

namespace YtMemeBot

/-- Splitting a count along a second predicate. -/
theorem countP_and_not_split (l : List Job) (p q : Job → Bool) :
    l.countP p
      = l.countP (fun j => p j && q j) + l.countP (fun j => p j && !(q j)) := by
  induction l with
  | nil => rfl
  | cons x xs ih =>
    simp only [List.countP_cons]
    by_cases hp : p x = true <;> by_cases hq : q x = true <;>
      simp [hp, hq, ih] <;> omega

/-- With Nodup ids, exactly one row matches `id = jobId AND status='scheduled'`
when a scheduled row with that id is present. -/
theorem countP_unique_scheduled_id :
    ∀ (s : Store) (jobId : Nat) (job : Job),
      (s.map (·.id)).Nodup → job ∈ s → job.id = jobId →
      job.status = .scheduled →
      s.countP (fun j => j.id == jobId && j.status == Status.scheduled) = 1
  | [], _, _, _, hmem, _, _ => by cases hmem
  | x :: xs, jobId, job, hnd, hmem, hid, hsched => by
    have hnd2 : (x.id :: xs.map (·.id)).Nodup := by simpa using hnd
    obtain ⟨hx, hxs⟩ := List.nodup_cons.mp hnd2
    rw [List.countP_cons]
    rcases List.mem_cons.mp hmem with h | h
    · subst h
      have hzero : xs.countP
          (fun j => j.id == jobId && j.status == Status.scheduled) = 0 := by
        refine List.countP_eq_zero.mpr ?_
        intro j hj hq
        have hjid : j.id = jobId := by
          have := (Bool.and_eq_true _ _).mp hq |>.1
          exact beq_iff_eq.mp this
        exact hx ((hid ▸ hjid.symm) ▸ List.mem_map_of_mem (·.id) hj)
      simp [hzero, hid, hsched]
    · have hxfalse : (x.id == jobId && x.status == Status.scheduled) = false := by
        by_contra hc
        have hxtrue := Bool.of_not_eq_false hc
        have hxid : x.id = jobId :=
          beq_iff_eq.mp ((Bool.and_eq_true _ _).mp hxtrue).1
        have : job.id ∈ xs.map (·.id) := List.mem_map_of_mem (·.id) h
        exact hx ((hxid.trans hid.symm) ▸ this)
      rw [hxfalse]
      simpa using countP_unique_scheduled_id xs jobId job (by simpa using hxs)
        h hid hsched

/-- The ids in the `get_scheduled_after` snapshot are Nodup whenever the
store's ids are. -/
theorem scheduled_after_keys_nodup (s : Store) (t : Int)
    (hnd : (s.map (·.id)).Nodup) :
    (((get_scheduled_after s t).map
      (fun j => (j.id, j.scheduledAt))).map Prod.fst).Nodup := by
  rw [List.map_map]
  show ((get_scheduled_after s t).map (·.id)).Nodup
  have hperm : (get_scheduled_after s t).Perm
      (s.filter (fun j => j.status == .scheduled && t < j.scheduledAt)) :=
    List.perm_insertionSort _ _
  have hsub : (s.filter (fun j => j.status == .scheduled && t < j.scheduledAt)).Sublist
      s := List.filter_sublist s
  have hfil : ((s.filter
      (fun j => j.status == .scheduled && t < j.scheduledAt)).map (·.id)).Nodup :=
    (hsub.map (·.id)).nodup hnd
  exact ((hperm.map (·.id)).nodup_iff).mpr hfil

end YtMemeBot

namespace YtMemeBot

/-- C2: every deletion of a Scheduled job at time `t` through the bot's
deletion flow (`delete_yes_handler` = lookup, `delete_scheduled_video`,
`handle_queue_deletion`) shifts each Scheduled job with scheduledAt strictly
greater than `t` earlier by exactly the configured interval — uniformly and
independently of processing order — leaves jobs at or before `t` and
non-Scheduled rows unchanged, returns the number of jobs shifted, and
decreases the total Scheduled count by exactly one.  `hnd` is the table's
primary-key invariant (distinct ids). -/
theorem C2_deletion_cascade (s : Store) (intervalMin : Int) (jobId : Nat)
    (job : Job) (s2 : Store) (n : Nat)
    (hnd : (s.map (·.id)).Nodup)
    (hdet : get_video_details s jobId = some job)
    (hres : delete_yes_handler s intervalMin jobId = some (s2, n)) :
    s2 = (delete_scheduled_video s jobId).1.map
        (fun j => if j.status == Status.scheduled
              && job.scheduledAt < j.scheduledAt
          then { j with scheduledAt := j.scheduledAt - intervalMin } else j)
      ∧ n = s.countP (fun j => j.status == Status.scheduled
          && job.scheduledAt < j.scheduledAt)
      ∧ count_scheduled_videos s2 + 1 = count_scheduled_videos s := by
  have hdet2 : s.find? (fun j => j.id == jobId && j.status == Status.scheduled)
      = some job := hdet
  have hjob_mem : job ∈ s := List.mem_of_find?_eq_some hdet2
  have hjob_pred := List.find?_some hdet2
  have hjob_id : job.id = jobId :=
    beq_iff_eq.mp ((Bool.and_eq_true _ _).mp hjob_pred).1
  have hjob_sched : job.status = Status.scheduled :=
    beq_iff_eq.mp ((Bool.and_eq_true _ _).mp hjob_pred).2
  have hnd1 : (((delete_scheduled_video s jobId).1).map (·.id)).Nodup :=
    ((List.filter_sublist s).map (·.id)).nodup hnd
  have hres' : handle_queue_deletion (delete_scheduled_video s jobId).1
      intervalMin job.scheduledAt = (s2, n) := by
    have h0 : delete_yes_handler s intervalMin jobId
        = some (handle_queue_deletion (delete_scheduled_video s jobId).1
            intervalMin job.scheduledAt) := by
      simp only [delete_yes_handler, hdet]
    rw [h0] at hres
    exact Option.some.inj hres
  have hkeys : ((((get_scheduled_after (delete_scheduled_video s jobId).1
      job.scheduledAt)).map (fun j => (j.id, j.scheduledAt))).map Prod.fst).Nodup :=
    scheduled_after_keys_nodup _ _ hnd1
  have hperm : (get_scheduled_after (delete_scheduled_video s jobId).1
      job.scheduledAt).Perm
      (((delete_scheduled_video s jobId).1).filter
        (fun j => j.status == .scheduled && job.scheduledAt < j.scheduledAt)) :=
    List.perm_insertionSort _ _
  have hs2 : s2 = ((get_scheduled_after (delete_scheduled_video s jobId).1
        job.scheduledAt).map (fun j => (j.id, j.scheduledAt))).foldl
      (fun acc p => reschedule_forward acc p.1 (p.2 - intervalMin))
      (delete_scheduled_video s jobId).1 := by
    have := congrArg Prod.fst hres'
    simpa [handle_queue_deletion] using this.symm
  have hn : n = ((get_scheduled_after (delete_scheduled_video s jobId).1
      job.scheduledAt).map (fun j => (j.id, j.scheduledAt))).length := by
    have := congrArg Prod.snd hres'
    simpa [handle_queue_deletion] using this.symm
  have hfold := foldl_reschedule_forward_eq_map intervalMin
    ((get_scheduled_after (delete_scheduled_video s jobId).1
      job.scheduledAt).map (fun j => (j.id, j.scheduledAt)))
    (delete_scheduled_video s jobId).1 hkeys
  -- pointwise description of the fold as a uniform shift
  have hmapeq : ((delete_scheduled_video s jobId).1).map (fun j =>
        match List.lookup j.id ((get_scheduled_after
            (delete_scheduled_video s jobId).1 job.scheduledAt).map
          (fun j => (j.id, j.scheduledAt))) with
        | some oldT => { j with scheduledAt := oldT - intervalMin }
        | none => j)
      = ((delete_scheduled_video s jobId).1).map
        (fun j => if j.status == Status.scheduled
              && job.scheduledAt < j.scheduledAt
          then { j with scheduledAt := j.scheduledAt - intervalMin } else j) := by
    refine List.map_eq_map_iff.mpr ?_
    intro j hj
    by_cases hp : (j.status == Status.scheduled
        && job.scheduledAt < j.scheduledAt) = true
    · have hjf : j ∈ ((delete_scheduled_video s jobId).1).filter
          (fun j => j.status == .scheduled && job.scheduledAt < j.scheduledAt) :=
        List.mem_filter.mpr ⟨hj, hp⟩
      have hjs : j ∈ get_scheduled_after (delete_scheduled_video s jobId).1
          job.scheduledAt := hperm.mem_iff.mpr hjf
      have hpair : (j.id, j.scheduledAt) ∈ (get_scheduled_after
          (delete_scheduled_video s jobId).1 job.scheduledAt).map
          (fun j => (j.id, j.scheduledAt)) :=
        List.mem_map_of_mem _ hjs
      have hlook := lookup_eq_some_of_nodup_keys _ _ _ hkeys hpair
      rw [hlook, if_pos hp]
    · have hnone : List.lookup j.id ((get_scheduled_after
          (delete_scheduled_video s jobId).1 job.scheduledAt).map
          (fun j => (j.id, j.scheduledAt))) = none := by
        refine List.lookup_eq_none_iff.mpr ?_
        intro p hpmem
        rcases List.mem_map.mp hpmem with ⟨x, hx, hxp⟩
        refine bne_iff_ne.mpr ?_
        intro hidp
        have hxf : x ∈ ((delete_scheduled_video s jobId).1).filter
            (fun j => j.status == .scheduled
              && job.scheduledAt < j.scheduledAt) := hperm.mem_iff.mp hx
        obtain ⟨hxs1, hxpred⟩ := List.mem_filter.mp hxf
        have hxid : x.id = j.id := by
          have : p.1 = x.id := by rw [← hxp]
          rw [← this, ← hidp]
        have hxj : x = j := List.inj_on_of_nodup_map hnd1 hxs1 hj hxid
        exact hp (hxj ▸ hxpred)
      rw [hnone, if_neg hp]
  refine ⟨?_, ?_, ?_⟩
  · rw [hs2, hfold, hmapeq]
  · -- n equals the count of strictly-later scheduled jobs in the original store
    rw [hn, List.length_map, hperm.length_eq, ← List.countP_eq_length_filter,
      delete_scheduled_video, List.countP_filter]
    refine List.countP_congr ?_
    intro j hj
    constructor
    · intro h
      exact ((Bool.and_eq_true _ _).mp h).1
    · intro h
      refine (Bool.and_eq_true _ _).mpr ⟨h, ?_⟩
      by_contra hkf
      have : (j.id == jobId && j.status == Status.scheduled) = true := by
        rcases Bool.eq_false_or_eq_true (j.id == jobId
            && j.status == Status.scheduled) with ht | hf
        · exact ht
        · exact absurd (by simp [hf]) hkf
      have hjid : j.id = jobId := beq_iff_eq.mp ((Bool.and_eq_true _ _).mp this).1
      have hjj : j = job := List.inj_on_of_nodup_map hnd hj hjob_mem
        (by rw [hjid, hjob_id])
      have hlt := ((Bool.and_eq_true _ _).mp h).2
      rw [hjj] at hlt
      exact absurd (of_decide_eq_true hlt) (lt_irrefl _)
  · -- scheduled count drops by exactly one
    have hstep1 : count_scheduled_videos s2
        = count_scheduled_videos (delete_scheduled_video s jobId).1 := by
      rw [hs2, hfold, hmapeq, count_scheduled_videos, List.countP_map]
      refine List.countP_congr ?_
      intro j hj
      simp only [Function.comp, beq_iff_eq]
      split <;> simp
    have hstep3 : count_scheduled_videos (delete_scheduled_video s jobId).1
        = s.countP (fun j => (j.status == Status.scheduled)
            && !(j.id == jobId && j.status == Status.scheduled)) := by
      rw [count_scheduled_videos, delete_scheduled_video, List.countP_filter]
    have hstep2 := countP_and_not_split s
      (fun j => j.status == Status.scheduled)
      (fun j => !(j.id == jobId && j.status == Status.scheduled))
    have hstep4 : s.countP (fun j => (j.status == Status.scheduled)
          && !(!(j.id == jobId && j.status == Status.scheduled)))
        = s.countP (fun j => j.id == jobId && j.status == Status.scheduled) := by
      refine List.countP_congr ?_
      intro j hj
      simp only [Bool.not_not]
      constructor
      · intro h
        exact ((Bool.and_eq_true _ _).mp h).2
      · intro h
        exact (Bool.and_eq_true _ _).mpr
          ⟨((Bool.and_eq_true _ _).mp h).2, h⟩
    have hstep5 : s.countP
        (fun j => j.id == jobId && j.status == Status.scheduled) = 1 :=
      countP_unique_scheduled_id s jobId job hnd hjob_mem hjob_id hjob_sched
    rw [hstep1, hstep3]
    rw [hstep4, hstep5] at hstep2
    rw [count_scheduled_videos] at *
    omega

end YtMemeBot

namespace YtMemeBot

set_option maxRecDepth 10000

/-- C2 witness: the spec's three-job scenario — Scheduled jobs at
t0=1000 < t1=1030 < t2=1060 spaced by the interval I=30; deleting the job at
t0 leaves the others at t1-I=1000 and t2-I=1030, reports 2 shifted jobs, and
drops the Scheduled count from 3 to 2. -/
theorem C2_deletion_cascade_witness :
    [sampleJob 2 1000 .scheduled, sampleJob 3 1030 .scheduled]
        = (delete_scheduled_video
            [sampleJob 1 1000 .scheduled, sampleJob 2 1030 .scheduled,
             sampleJob 3 1060 .scheduled] 1).1.map
          (fun j => if j.status == Status.scheduled
                && (sampleJob 1 1000 Status.scheduled).scheduledAt < j.scheduledAt
            then { j with scheduledAt := j.scheduledAt - 30 } else j)
      ∧ 2 = List.countP (fun j => j.status == Status.scheduled
            && (sampleJob 1 1000 Status.scheduled).scheduledAt < j.scheduledAt)
          [sampleJob 1 1000 .scheduled, sampleJob 2 1030 .scheduled,
           sampleJob 3 1060 .scheduled]
      ∧ count_scheduled_videos
            [sampleJob 2 1000 .scheduled, sampleJob 3 1030 .scheduled] + 1
          = count_scheduled_videos
            [sampleJob 1 1000 .scheduled, sampleJob 2 1030 .scheduled,
             sampleJob 3 1060 .scheduled] :=
  C2_deletion_cascade
    [sampleJob 1 1000 .scheduled, sampleJob 2 1030 .scheduled,
     sampleJob 3 1060 .scheduled] 30 1 (sampleJob 1 1000 .scheduled)
    [sampleJob 2 1000 .scheduled, sampleJob 3 1030 .scheduled] 2
    (by decide) (by decide) (by decide)

end YtMemeBot

namespace YtMemeBot

/-! ## Shared lemmas about single-row updates, used by the sweep claims -/

/-- `reschedule` does not change the id column of any row. -/
theorem reschedule_map_id (s : Store) (jobId : Nat) (t : Int)
    (r : Option String) : (reschedule s jobId t r).map (·.id) = s.map (·.id) := by
  rw [reschedule, List.map_map]
  refine List.map_eq_map_iff.mpr ?_
  intro j _
  by_cases h : j.id = jobId <;> simp [Function.comp, h]

/-- `reschedule` never increases the uploaded-on-a-date count: the target row
comes back with status='scheduled'. -/
theorem count_uploaded_reschedule_le (s : Store) (jobId : Nat) (t : Int)
    (r : Option String) (d : Int) :
    count_uploaded_on (reschedule s jobId t r) d ≤ count_uploaded_on s d := by
  rw [count_uploaded_on, count_uploaded_on, reschedule, List.countP_map]
  refine List.countP_mono_left ?_
  intro j hj h
  by_cases hid : j.id = jobId
  · exfalso
    revert h
    simp [Function.comp, hid, uploadedOnP]
  · simpa [Function.comp, hid] using h

/-- A row whose id is not targeted survives `reschedule` unchanged. -/
theorem mem_reschedule_of_ne (s : Store) (jobId : Nat) (t : Int)
    (r : Option String) (x : Job) (hx : x ∈ s) (hne : x.id ≠ jobId) :
    x ∈ reschedule s jobId t r := by
  have heq : (fun j => if j.id = jobId then
      { j with status := Status.scheduled, scheduledAt := t, error := r }
      else j) x = x := if_neg hne
  exact heq ▸ List.mem_map_of_mem _ hx

/-- The targeted row survives `reschedule` in rescheduled form. -/
theorem mem_reschedule_of_eq (s : Store) (jobId : Nat) (t : Int)
    (r : Option String) (x : Job) (hx : x ∈ s) (hid : x.id = jobId) :
    { x with status := .scheduled, scheduledAt := t, error := r }
      ∈ reschedule s jobId t r := by
  have heq : (fun j => if j.id = jobId then
      { j with status := Status.scheduled, scheduledAt := t, error := r }
      else j) x
      = { x with status := .scheduled, scheduledAt := t, error := r } := by
    simp [hid]
  exact heq ▸ List.mem_map_of_mem _ hx

/-- Every row of `reschedule s jobId t r` is an original row or the
rescheduled row carrying exactly the new time and reason. -/
theorem mem_reschedule_cases (s : Store) (jobId : Nat) (t : Int)
    (r : Option String) (j : Job) (hj : j ∈ reschedule s jobId t r) :
    j ∈ s ∨ (j.status = .scheduled ∧ j.scheduledAt = t ∧ j.error = r) := by
  rcases List.mem_map.mp hj with ⟨x, hx, hfx⟩
  by_cases h : x.id = jobId
  · right
    rw [← hfx]
    simp [h]
  · left
    rw [← hfx]
    simpa [h] using hx

end YtMemeBot

namespace YtMemeBot

/-! ## C5 — zero destination successes -/

/-- C5 counterexample: a dispatched job for which `upload_to_all` returns
with ZERO destination successes (`.returns 0 []`, no exception — youtube.py
catches every per-channel error itself) is nevertheless marked Uploaded on
both paths: the periodic sweep calls `mark_uploaded` unconditionally right
after the dispatch (scheduler.py line 59), and the immediate-dispatch path
logs the row with status='uploaded' unconditionally (app/uploader.py) —
the job is not rescheduled. -/
theorem C5_counterexample :
    (process_scheduled ⟨2, 10, 30⟩
        ⟨fun _ => .returns 0 [], fun _ => 500, fun _ => true, fun _ => true,
         fun _ => true, fun _ => ""⟩
        [sampleJob 1 100 .scheduled] 600).map
        (fun j => (j.status, j.uploadedAt))
      = [(Status.uploaded, some 500)]
    ∧ ((handle_upload [] 1 600 2 10 30 ⟨"h", true, ["c1"], .returns 0 []⟩
        "f" "t" "d" [] false).1).map (·.status) = [Status.uploaded]
    ∧ (handle_upload [] 1 600 2 10 30 ⟨"h", true, ["c1"], .returns 0 []⟩
        "f" "t" "d" [] false).2 = .uploadedNow 0 := by
  refine ⟨by decide, by decide, by decide⟩

/-- C5 amended: on both dispatch paths, a dispatch that RETURNS (without
raising) is recorded as Uploaded regardless of the number of destination
successes — including zero; only a raised exception avoids the Uploaded
marking.  Sweep path: when the collaborator returns `(numOk, results)` the
job is marked uploaded, the running count incremented, and the loop
continues (when the success notification succeeds).  Immediate path: under
the daily limit a returning dispatch always logs the new row with
status='uploaded'. -/
theorem C5_returns_marked_uploaded (cfg : SweepCfg) (env : SweepEnv)
    (today : Int) (j : Job) (rest : List Job) (s : Store) (c : Nat)
    (numOk : Nat) (results : List (String × String))
    (hclt : c < cfg.dailyLimit) (hdisp : env.dispatch j.id = .returns numOk results)
    (hnot : env.notifySuccessOk j.id = true)
    (s' : Store) (newId : Nat) (now : Int) (dailyLimit : Nat)
    (startHour intervalMin : Int) (uenv : UploadEnv)
    (tgFileId title description : String) (tags : List String) (force : Bool)
    (hch : ¬ uenv.channelNames = [])
    (hdup : ¬ (¬ force ∧ (check_hash_store s' uenv.fileHash).isSome))
    (hproc : uenv.processOk = true)
    (hlimit : count_uploaded_on s' (dateOf now) < dailyLimit)
    (hdisp' : uenv.dispatch = .returns numOk results) :
    run_due_jobs cfg env today (j :: rest) s c
        = run_due_jobs cfg env today rest
            (mark_uploaded s j.id (env.completeAt j.id)) (c + 1)
      ∧ handle_upload s' newId now dailyLimit startHour intervalMin uenv
          tgFileId title description tags force
        = (log_new_job s' newId tgFileId title description tags
            uenv.channelNames now (some now) .uploaded none
            (next_seq_no s' 100) (some uenv.fileHash),
           .uploadedNow numOk) := by
  constructor
  · rw [run_due_jobs, if_neg (Nat.not_le.mpr hclt), hdisp]
    simp only [hnot, if_pos]
  · rw [handle_upload]
    rw [if_neg hch, if_neg hdup]
    rw [if_neg (by simpa using hproc), if_pos hlimit, hdisp']

/-- C5 witness: the amended theorem at concrete inputs (with zero
destination successes). -/
theorem C5_returns_marked_uploaded_witness :
    run_due_jobs ⟨2, 10, 30⟩
        ⟨fun _ => .returns 0 [], fun _ => 500, fun _ => true, fun _ => true,
         fun _ => true, fun _ => ""⟩ 0
        [sampleJob 1 100 .scheduled] [sampleJob 1 100 .scheduled] 0
      = run_due_jobs ⟨2, 10, 30⟩
          ⟨fun _ => .returns 0 [], fun _ => 500, fun _ => true, fun _ => true,
           fun _ => true, fun _ => ""⟩ 0 []
          (mark_uploaded [sampleJob 1 100 .scheduled] 1 500) 1
    ∧ handle_upload [] 1 600 2 10 30 ⟨"h", true, ["c1"], .returns 0 []⟩
        "f" "t" "d" [] false
      = (log_new_job [] 1 "f" "t" "d" [] ["c1"] 600 (some 600) .uploaded none
          (next_seq_no [] 100) (some "h"), .uploadedNow 0) := by
  have h := C5_returns_marked_uploaded ⟨2, 10, 30⟩
    ⟨fun _ => .returns 0 [], fun _ => 500, fun _ => true, fun _ => true,
     fun _ => true, fun _ => ""⟩ 0
    (sampleJob 1 100 .scheduled) [] [sampleJob 1 100 .scheduled] 0 0 []
    (by decide) rfl rfl
    [] 1 600 2 10 30 ⟨"h", true, ["c1"], .returns 0 []⟩ "f" "t" "d" [] false
    (by decide) (by decide) rfl (by decide) rfl
  exact h

end YtMemeBot

namespace YtMemeBot

/-! ## C6 — per-job failure isolation -/

/-- C6 counterexample: two due jobs (ids 1 and 2); job 1's dispatch raises
"boom" and the follow-up operator notification also fails.  That
notification runs OUTSIDE the per-job try block (scheduler.py line 91), so
its exception escapes to the sweep-level handler and the sweep ends: job 1
is rescheduled to the next-day slot (instant 2040, day 1), but job 2 — still
due at 200 — is left completely unprocessed (had it been processed, its own
raising dispatch would have rescheduled it to a next-day slot too). -/
theorem C6_counterexample :
    process_scheduled ⟨2, 10, 30⟩
        ⟨fun _ => .raises "boom", fun _ => 500, fun _ => true, fun _ => true,
         fun _ => false, fun _ => ""⟩
        [sampleJob 1 100 .scheduled, sampleJob 2 200 .scheduled] 600
      = [{ sampleJob 1 100 Status.scheduled with scheduledAt := (2040 : Int), error := some "boom" },
         sampleJob 2 200 .scheduled] := by
  decide

/-- C6 amended: per-job isolation holds for the dispatch failure itself —
when the collaborator raises, the job is rescheduled to the following day's
slot with the failure message as reason and the loop continues with the
remaining due jobs — but ONLY when the subsequent operator notification
succeeds.  The notification is not best-effort here: if it fails, the
exception escapes the per-job handler and the sweep ends with the remaining
due jobs unprocessed. -/
theorem C6_isolation_needs_notify (cfg : SweepCfg) (env : SweepEnv)
    (today : Int) (j : Job) (rest : List Job) (s : Store) (c : Nat)
    (m : String) (hclt : c < cfg.dailyLimit)
    (hdisp : env.dispatch j.id = .raises m) :
    (env.notifyErrorOk j.id = true →
        run_due_jobs cfg env today (j :: rest) s c
          = run_due_jobs cfg env today rest
              (reschedule s j.id
                (compute_next_day_slot s (today + 1) cfg.uploadStartHour
                  cfg.uploadIntervalMinutes) (some m)) c)
      ∧ (env.notifyErrorOk j.id = false →
          run_due_jobs cfg env today (j :: rest) s c
            = reschedule s j.id
                (compute_next_day_slot s (today + 1) cfg.uploadStartHour
                  cfg.uploadIntervalMinutes) (some m)) := by
  constructor
  · intro hnot
    rw [run_due_jobs, if_neg (Nat.not_le.mpr hclt), hdisp]
    simp only [hnot, if_pos]
  · intro hnot
    rw [run_due_jobs, if_neg (Nat.not_le.mpr hclt), hdisp]
    simp only [hnot]
    simp

/-- C6 witness: the amended theorem at a concrete one-job tail. -/
theorem C6_isolation_needs_notify_witness :
    run_due_jobs ⟨2, 10, 30⟩
        ⟨fun _ => .raises "boom", fun _ => 500, fun _ => true, fun _ => true,
         fun _ => true, fun _ => ""⟩ 0
        [sampleJob 1 100 .scheduled] [sampleJob 1 100 .scheduled] 0
      = run_due_jobs ⟨2, 10, 30⟩
          ⟨fun _ => .raises "boom", fun _ => 500, fun _ => true, fun _ => true,
           fun _ => true, fun _ => ""⟩ 0 []
          (reschedule [sampleJob 1 100 .scheduled] 1
            (compute_next_day_slot [sampleJob 1 100 .scheduled] 1 10 30)
            (some "boom")) 0 :=
  (C6_isolation_needs_notify ⟨2, 10, 30⟩
    ⟨fun _ => .raises "boom", fun _ => 500, fun _ => true, fun _ => true,
     fun _ => true, fun _ => ""⟩ 0
    (sampleJob 1 100 .scheduled) [] [sampleJob 1 100 .scheduled] 0 "boom"
    (by decide) rfl).1 rfl

end YtMemeBot

namespace YtMemeBot

/-! ## C1 — quota enforcement -/

/-- In the limit-reached branch, rows whose id is not among the remaining
due ids pass through the rest of the sweep untouched. -/
theorem run_due_jobs_limit_preserves (cfg : SweepCfg) (env : SweepEnv)
    (today : Int) :
    ∀ (due : List Job) (s : Store) (c : Nat), cfg.dailyLimit ≤ c →
      ∀ x ∈ s, x.id ∉ due.map (·.id) → x ∈ run_due_jobs cfg env today due s c
  | [], s, c, _, x, hx, _ => by simpa [run_due_jobs] using hx
  | d :: due, s, c, hc, x, hx, hnmem => by
    rw [run_due_jobs, if_pos hc]
    have hne : x.id ≠ d.id := by
      intro h
      exact hnmem (by simp [h])
    have hx1 : x ∈ reschedule s d.id
        (compute_next_day_slot s (today + 1) cfg.uploadStartHour
          cfg.uploadIntervalMinutes) (some limitReason) :=
      mem_reschedule_of_ne _ _ _ _ x hx hne
    have hnmem' : x.id ∉ due.map (·.id) := by
      intro h
      exact hnmem (by simp [h])
    by_cases hn : env.notifyLimitOk d.id = true
    · rw [if_pos hn]
      exact run_due_jobs_limit_preserves cfg env today due _ c hc x hx1 hnmem'
    · rw [if_neg hn]
      exact hx1

/-- In the limit-reached branch, every row of the final store is an original
row or a row rescheduled to a following-day slot with the limit reason. -/
theorem run_due_jobs_limit_mem (cfg : SweepCfg) (env : SweepEnv)
    (today : Int) :
    ∀ (due : List Job) (s : Store) (c : Nat), cfg.dailyLimit ≤ c →
      ∀ j ∈ run_due_jobs cfg env today due s c,
        j ∈ s ∨ (j.status = .scheduled ∧ j.error = some limitReason
          ∧ ∃ k : Nat, j.scheduledAt = slotSpec (today + 1)
              cfg.uploadStartHour k cfg.uploadIntervalMinutes)
  | [], s, c, _, j, hj => Or.inl (by simpa [run_due_jobs] using hj)
  | d :: due, s, c, hc, j, hj => by
    rw [run_due_jobs, if_pos hc] at hj
    have hres : ∀ x ∈ reschedule s d.id
        (compute_next_day_slot s (today + 1) cfg.uploadStartHour
          cfg.uploadIntervalMinutes) (some limitReason),
        x ∈ s ∨ (x.status = .scheduled ∧ x.error = some limitReason
          ∧ ∃ k : Nat, x.scheduledAt = slotSpec (today + 1)
              cfg.uploadStartHour k cfg.uploadIntervalMinutes) := by
      intro x hxm
      rcases mem_reschedule_cases _ _ _ _ x hxm with h | ⟨h1, h2, h3⟩
      · exact Or.inl h
      · refine Or.inr ⟨h1, h3, ⟨count_scheduled_on s (today + 1), ?_⟩⟩
        rw [h2, compute_next_day_slot, slotSpec]
    by_cases hn : env.notifyLimitOk d.id = true
    · rw [if_pos hn] at hj
      rcases run_due_jobs_limit_mem cfg env today due _ c hc j hj with h | h
      · exact hres j h
      · exact Or.inr h
    · rw [if_neg hn] at hj
      exact hres j hj

/-- In the limit-reached branch no date's uploaded count ever grows. -/
theorem run_due_jobs_limit_count (cfg : SweepCfg) (env : SweepEnv)
    (today : Int) :
    ∀ (due : List Job) (s : Store) (c : Nat) (d0 : Int), cfg.dailyLimit ≤ c →
      count_uploaded_on (run_due_jobs cfg env today due s c) d0
        ≤ count_uploaded_on s d0
  | [], s, c, d0, _ => by simp [run_due_jobs]
  | d :: due, s, c, d0, hc => by
    rw [run_due_jobs, if_pos hc]
    have hle := count_uploaded_reschedule_le s d.id
      (compute_next_day_slot s (today + 1) cfg.uploadStartHour
        cfg.uploadIntervalMinutes) (some limitReason) d0
    by_cases hn : env.notifyLimitOk d.id = true
    · rw [if_pos hn]
      exact le_trans
        (run_due_jobs_limit_count cfg env today due _ c d0 hc) hle
    · rw [if_neg hn]
      exact hle

/-- In the limit-reached branch, when notifications succeed, ids are
distinct, and every due id is present in the store, each due job ends up
rescheduled to a following-day slot with the limit reason. -/
theorem run_due_jobs_limit_each (cfg : SweepCfg) (env : SweepEnv)
    (today : Int) :
    ∀ (due : List Job) (s : Store) (c : Nat), cfg.dailyLimit ≤ c →
      (∀ d ∈ due, env.notifyLimitOk d.id = true) →
      (due.map (·.id)).Nodup →
      (∀ d ∈ due, d.id ∈ s.map (·.id)) →
      ∀ d ∈ due, ∃ j ∈ run_due_jobs cfg env today due s c,
        j.id = d.id ∧ j.status = .scheduled ∧ j.error = some limitReason
          ∧ ∃ k : Nat, j.scheduledAt = slotSpec (today + 1)
              cfg.uploadStartHour k cfg.uploadIntervalMinutes
  | [], _, _, _, _, _, _, d, hd => by cases hd
  | d0 :: due, s, c, hc, hnot, hnd, hmem, d, hd => by
    have hn0 : env.notifyLimitOk d0.id = true := hnot d0 (List.mem_cons_self d0 due)
    have hnd2 : (d0.id :: due.map (·.id)).Nodup := by simpa using hnd
    obtain ⟨hhead, htail⟩ := List.nodup_cons.mp hnd2
    rw [run_due_jobs, if_pos hc, if_pos hn0]
    rcases List.mem_cons.mp hd with h | hd'
    · subst h
      obtain ⟨x, hxs, hxid⟩ := List.mem_map.mp (hmem d (List.mem_cons_self d due))
      have hx1 : ({ x with
          status := Status.scheduled
          scheduledAt := compute_next_day_slot s (today + 1)
            cfg.uploadStartHour cfg.uploadIntervalMinutes
          error := some limitReason }) ∈ reschedule s d.id
          (compute_next_day_slot s (today + 1) cfg.uploadStartHour
            cfg.uploadIntervalMinutes) (some limitReason) :=
        mem_reschedule_of_eq _ _ _ _ x hxs hxid
      have hkeep := run_due_jobs_limit_preserves cfg env today due _ c hc _
        hx1 (by simpa [hxid] using hhead)
      refine ⟨_, hkeep, by simpa using hxid, rfl, rfl,
        ⟨count_scheduled_on s (today + 1), ?_⟩⟩
      show compute_next_day_slot s (today + 1) cfg.uploadStartHour
        cfg.uploadIntervalMinutes = _
      rw [compute_next_day_slot, slotSpec]
    · have hmem' : ∀ e ∈ due, e.id ∈ (reschedule s d0.id
          (compute_next_day_slot s (today + 1) cfg.uploadStartHour
            cfg.uploadIntervalMinutes) (some limitReason)).map (·.id) := by
        intro e he
        rw [reschedule_map_id]
        exact hmem e (List.mem_cons_of_mem d0 he)
      exact run_due_jobs_limit_each cfg env today due _ c hc
        (fun e he => hnot e (List.mem_cons_of_mem d0 he)) htail hmem' d hd'

end YtMemeBot

namespace YtMemeBot

/-- C1: quota enforcement.  (i) If today's uploaded count already meets the
daily limit, the sweep (`process_scheduled`) leaves the store untouched — no
job is marked Uploaded and nothing else changes.  (ii)(iii)(iv) Once the
running uploaded count has reached the limit mid-sweep (`dailyLimit ≤ c`),
the remainder of the per-job loop: never increases any date's uploaded count
(no job is marked Uploaded), only produces rows that are either untouched
original rows or rows rescheduled with reason "Daily limit reached while
processing queue" to a slot of the following UTC day
(`slotSpec (today+1) startHour k interval`), and — when the limit
notifications succeed, the due ids are distinct, and each due id is present
in the store — reschedules every remaining due job to such a slot with that
reason, continuing through the whole list rather than aborting. -/
theorem C1_quota_enforcement (cfg : SweepCfg) (env : SweepEnv) (s : Store)
    (now today d0 : Int) (due : List Job) (c : Nat)
    (hc : cfg.dailyLimit ≤ c)
    (hnotify : ∀ d ∈ due, env.notifyLimitOk d.id = true)
    (hdnodup : (due.map (·.id)).Nodup)
    (hdmem : ∀ d ∈ due, d.id ∈ s.map (·.id)) :
    (cfg.dailyLimit ≤ count_uploaded_on s (dateOf now) →
        process_scheduled cfg env s now = s)
      ∧ count_uploaded_on (run_due_jobs cfg env today due s c) d0
          ≤ count_uploaded_on s d0
      ∧ (∀ j ∈ run_due_jobs cfg env today due s c,
          j ∈ s ∨ (j.status = .scheduled ∧ j.error = some limitReason
            ∧ ∃ k : Nat, j.scheduledAt = slotSpec (today + 1)
                cfg.uploadStartHour k cfg.uploadIntervalMinutes))
      ∧ (∀ d ∈ due, ∃ j ∈ run_due_jobs cfg env today due s c,
          j.id = d.id ∧ j.status = .scheduled ∧ j.error = some limitReason
            ∧ ∃ k : Nat, j.scheduledAt = slotSpec (today + 1)
                cfg.uploadStartHour k cfg.uploadIntervalMinutes) := by
  refine ⟨?_, run_due_jobs_limit_count cfg env today due s c d0 hc,
    run_due_jobs_limit_mem cfg env today due s c hc,
    run_due_jobs_limit_each cfg env today due s c hc hnotify hdnodup hdmem⟩
  intro h
  simp only [process_scheduled, if_pos h]

/-- C1 witness: with dailyLimit 1 already consumed (one row uploaded on day
0), a sweep at instant 600 over a store that still holds a due Scheduled job
changes nothing. -/
theorem C1_quota_enforcement_witness :
    process_scheduled ⟨1, 10, 30⟩
        ⟨fun _ => .returns 1 [], fun _ => 500, fun _ => true, fun _ => true,
         fun _ => true, fun _ => ""⟩
        [sampleJob 1 100 .scheduled,
         { sampleJob 9 50 Status.uploaded with uploadedAt := some 50 }] 600
      = [sampleJob 1 100 .scheduled,
         { sampleJob 9 50 Status.uploaded with uploadedAt := some 50 }] :=
  (C1_quota_enforcement ⟨1, 10, 30⟩
    ⟨fun _ => .returns 1 [], fun _ => 500, fun _ => true, fun _ => true,
     fun _ => true, fun _ => ""⟩
    [sampleJob 1 100 .scheduled,
     { sampleJob 9 50 Status.uploaded with uploadedAt := some 50 }]
    600 0 0 [sampleJob 1 100 .scheduled] 1
    (by decide) (by decide) (by decide) (by decide)).1 (by decide)

end YtMemeBot
